import Mathlib

/-!
Shallow embedding of the offline mutation queue, sync engine, connectivity
service and dispatch layer of the caro-homecare mobile client.

Each definition mirrors one function of the TypeScript source:

- src/services/offlineQueueService.ts : persistQueue, enqueueRequest,
  processQueue (the drain pass), getQueue.
- src/services/netInfoService.ts : isConnected.
- src/services/apiService.ts : the axios response interceptor that performs
  token refresh on a 401 status.
- src/redux/slices/offlineSlice.ts and src/redux/middleware/offlineMiddleware.ts :
  markOfflineAction, the pendingActions list, and the
  syncOfflineData.fulfilled extra reducer.

Asynchronous effects are made explicit: storage-write outcomes, the
reachability probe and per-attempt network outcomes enter as parameters;
mutable service state is threaded as explicit state values.
-/

/-- Opaque request payload standing for the AxiosRequestConfig that the queue
stores and replays (method, endpoint and body are never inspected by the
queue logic). -/
structure RequestConfig where
  method : String
  url : String
  body : String
deriving DecidableEq

/-- QueuedRequest mirrors the interface of offlineQueueService.ts lines 7-11:
an id string, the request config, and the enqueue timestamp. -/
structure QueuedRequest where
  id : String
  config : RequestConfig
  timestamp : Nat
deriving DecidableEq

/-- Entry construction inside enqueueRequest (offlineQueueService.ts lines
60-64): the id is Date.now().toString() and the timestamp is Date.now(),
both taken from the single millisecond clock value at enqueue time. -/
def mkQueuedRequest (now : Nat) (config : RequestConfig) : QueuedRequest :=
  { id := toString now, config := config, timestamp := now }

/-- persistQueue (offlineQueueService.ts lines 122-128). The storage write
outcome is the parameter; the try/catch around storageService.setItem logs a
failed write and resolves normally, so the returned outcome is ok in both
cases. -/
def persistQueue (writeResult : Except String Unit) : Except String Unit :=
  match writeResult with
  | .ok _ => .ok ()
  | .error _ => .ok ()

/-- enqueueRequest (offlineQueueService.ts lines 57-74): build the entry from
the current clock value, push it onto the queue, then await persistQueue and
propagate its outcome to the caller. The trailing connectivity check only
kicks off a drain pass and does not affect the returned queue. -/
def enqueueRequest (writeResult : Except String Unit) (now : Nat)
    (config : RequestConfig) (queue : List QueuedRequest) :
    Except String (List QueuedRequest) :=
  let request := mkQueuedRequest now config
  let queue1 := queue ++ [request]
  match persistQueue writeResult with
  | .ok _ => .ok queue1
  | .error e => .error e

/-- ProcState is the mutable state of OfflineQueueService that processQueue
reads and writes: the in-memory queue array and the isProcessing guard
flag. -/
structure ProcState where
  queue : List QueuedRequest
  isProcessing : Bool
deriving DecidableEq

/-- processLoop is the for-loop of processQueue (offlineQueueService.ts lines
92-109), counting down from originalQueueLength. The send parameter gives
the outcome of apiService.api.request for each entry. On success the head is
shifted and the loop continues; on failure the head is shifted, pushed to
the tail, and the loop breaks. The second component of the result is the
trace of entries handed to the dispatcher, in call order. -/
def processLoop (send : QueuedRequest → Bool) :
    Nat → List QueuedRequest → List QueuedRequest × List QueuedRequest
  | 0, q => (q, [])
  | _ + 1, [] => ([], [])
  | n + 1, r :: rest =>
    if send r then
      let res := processLoop send n rest
      (res.1, r :: res.2)
    else
      (rest ++ [r], [r])

/-- processQueue (offlineQueueService.ts lines 79-117): return untouched when
the isProcessing flag is set or the queue is empty; otherwise set the flag,
bail out when disconnected, run the bounded loop, and clear the flag in the
finally block. The persistQueue call at the end swallows write errors and
does not alter the in-memory queue. -/
def processQueue (send : QueuedRequest → Bool) (connected : Bool)
    (s : ProcState) : ProcState × List QueuedRequest :=
  if s.isProcessing || s.queue.length == 0 then (s, [])
  else if !connected then ({ s with isProcessing := false }, [])
  else
    let res := processLoop send s.queue.length s.queue
    ({ queue := res.1, isProcessing := false }, res.2)

/-- EntryHeap models the JavaScript object graph relevant to getQueue: entry
objects and array objects live in a heap and are reached through numeric
references, so that aliasing between the internal queue array and a returned
snapshot can be expressed. -/
structure EntryHeap where
  entries : Nat → QueuedRequest
  arrays : Nat → List Nat

/-- getQueue (offlineQueueService.ts lines 133-135) returns the spread copy
of this.queue: a freshly allocated array object (address fresh) holding the
same entry references as the internal array at address queueArr. -/
def getQueue (h : EntryHeap) (queueArr fresh : Nat) : EntryHeap × Nat :=
  ({ h with arrays := fun a => if a = fresh then h.arrays queueArr else h.arrays a },
    fresh)

/-- Structural mutation a caller performs on an array object: replacing the
contents of the array at address a (push, splice, reverse and so on act only
on that array object). -/
def writeArray (h : EntryHeap) (a : Nat) (l : List Nat) : EntryHeap :=
  { h with arrays := fun x => if x = a then l else h.arrays x }

/-- Field mutation a caller performs on an entry object reached through a
reference: overwrite the entry object stored at address a. -/
def writeEntry (h : EntryHeap) (a : Nat) (e : QueuedRequest) : EntryHeap :=
  { h with entries := fun x => if x = a then e else h.entries x }

/-- Contents of the queue as later operations observe them: the entry
references of the array at address qa, resolved through the heap. -/
def queueContents (h : EntryHeap) (qa : Nat) : List QueuedRequest :=
  (h.arrays qa).map h.entries

/-- isConnected (netInfoService.ts lines 157-166). The probe parameter is the
outcome of NetInfo.fetch: an exception, or a state whose isConnected field
may be null (the source applies the null coalescing default false). The
result pairs the returned boolean with the updated cached state; an error
result would model an uncaught exception, and the catch branch returns the
last known cached state unchanged. -/
def isConnected (probe : Except Unit (Option Bool)) (cached : Bool) :
    Except Unit (Bool × Bool) :=
  match probe with
  | .ok st => .ok (st.getD false, st.getD false)
  | .error _ => .ok (cached, cached)

/-- Raw outcome of one axios send of a request: a success response, an HTTP
error response with a status code, or a network error (request left, no
response). -/
inductive SendOutcome where
  | ok (resp : Nat)
  | httpErr (status : Nat)
  | netErr
deriving DecidableEq

/-- Final outcome the caller of the dispatch layer observes. -/
inductive DispatchOutcome where
  | ok (resp : Nat)
  | httpFail (status : Nat)
  | netQueued
  | netFail
  | exhausted
deriving DecidableEq

/-- Fixed environment of the 401 handler in apiService.ts: the stored refresh
token and the outcome of POST /auth/refresh (an exception, or a response
whose data.token field may be absent). -/
structure AuthEnv where
  refreshToken : Option Nat
  refreshResult : Except Unit (Option Nat)

/-- Observable record of one dispatched request: the final outcome, how many
POST /auth/refresh calls were made for it, and the Authorization token
attached on each successive send attempt. -/
structure DispatchTrace where
  outcome : DispatchOutcome
  refreshCalls : Nat
  attemptTokens : List (Option Nat)
deriving DecidableEq

/-- dispatchRequest embeds the axios response interceptor of
apiService.ts lines 38-80 driving one request. The outcomes list supplies the
raw result of each successive send of this request. On a 401 with a stored
refresh token the interceptor always performs a refresh POST; on refresh
success the original request is resent through the same instance with the
new token, so its response is intercepted again (there is no retry marker
and no shared single-flight flag anywhere in the source). On refresh failure
or a missing token in the refresh response the auth data is cleared and the
original 401 is rejected. A network error is queued when offline, rejected
when online. -/
def dispatchRequest (env : AuthEnv) (connected : Bool) (storedToken : Option Nat) :
    List SendOutcome → DispatchTrace
  | [] => ⟨.exhausted, 0, []⟩
  | .ok r :: _ => ⟨.ok r, 0, [storedToken]⟩
  | .httpErr st :: rest =>
    if st == 401 then
      match env.refreshToken with
      | some _ =>
        match env.refreshResult with
        | .ok (some tok) =>
          let t := dispatchRequest env connected (some tok) rest
          ⟨t.outcome, t.refreshCalls + 1, storedToken :: t.attemptTokens⟩
        | .ok none => ⟨.httpFail 401, 1, [storedToken]⟩
        | .error _ => ⟨.httpFail 401, 1, [storedToken]⟩
      | none => ⟨.httpFail 401, 0, [storedToken]⟩
    else ⟨.httpFail st, 0, [storedToken]⟩
  | .netErr :: _ =>
    if connected then ⟨.netFail, 0, [storedToken]⟩
    else ⟨.netQueued, 0, [storedToken]⟩

/-- Redux action as the offline slice sees it: a type tag plus an opaque
payload. -/
structure ReduxAction where
  type : String
  payload : Nat
deriving DecidableEq

/-- OfflineAction mirrors the interface of offlineSlice: the wrapped action,
the timestamp recorded by the middleware, and the attempts counter. -/
structure OfflineAction where
  action : ReduxAction
  timestamp : Nat
  attempts : Nat
deriving DecidableEq

/-- Per-action result collected by the syncOfflineData thunk: a success flag
and the replayed action. -/
structure SyncResult where
  success : Bool
  action : ReduxAction
deriving DecidableEq

/-- Combined quiescent state of the two offline stores that exist in the
source: the pendingActions list of the redux offline slice, and the
in-memory queue of OfflineQueueService. -/
structure AppState where
  pendingActions : List OfflineAction
  queue : List QueuedRequest
deriving DecidableEq

/-- markOfflineAction reducer (offlineSlice) as invoked by offlineMiddleware
lines 17-22 on an offline-eligible action while disconnected: push the
wrapped action with attempts 0 onto pendingActions. Neither the middleware
nor the reducer touches OfflineQueueService, so the service queue is
unchanged. -/
def markOfflineAction (s : AppState) (a : ReduxAction) (now : Nat) : AppState :=
  { s with pendingActions := s.pendingActions ++ [⟨a, now, 0⟩] }

/-- enqueueRequest viewed on the combined state: the service pushes the new
entry onto its queue (the push precedes the persist call, and persistQueue
never rejects). The service dispatches no redux action, so pendingActions is
unchanged. -/
def enqueueRequestApp (s : AppState) (now : Nat) (config : RequestConfig) :
    AppState :=
  { s with queue := s.queue ++ [mkQueuedRequest now config] }

/-- Invariant claimed by the spec for all quiescent points: the UI-visible
pending record count equals the length of the offline queue. -/
def pendingQueueInvariant (s : AppState) : Prop :=
  s.pendingActions.length = s.queue.length

/-- successfulActionIndexes computed by the syncOfflineData.fulfilled reducer
(offlineSlice extraReducers): for each successful result, the first index of
pendingActions whose action type equals the result action type; findIndex
results of -1 are filtered out, which filterMap over findIdx? mirrors. -/
def successfulIdxs (pending : List OfflineAction) (results : List SyncResult) :
    List Nat :=
  (results.filter (fun r => r.success)).filterMap
    (fun r => List.findIdx? (fun pa => pa.action.type == r.action.type) pending)

/-- syncOfflineData.fulfilled reducer body: keep exactly the pendingActions
whose position is not listed in successfulActionIndexes. -/
def syncOfflineDataFulfilled (pending : List OfflineAction)
    (results : List SyncResult) : List OfflineAction :=
  (pending.enum.filter
    (fun x => !((successfulIdxs pending results).contains x.1))).map Prod.snd

/-- Decimal value of a digit character list, used to invert the decimal
rendering that produces queue entry ids. -/
def decChars : List Char → Nat
  | [] => 0
  | c :: cs => (c.toNat - 48) * 10 ^ cs.length + decChars cs

/-- Reference decimal rendering of a natural number, most significant digit
first; proved below to agree with the fueled Nat.toDigitsCore used by
toString. -/
def repList (n : Nat) : List Char :=
  if _ : n < 10 then [Nat.digitChar n]
  else repList (n / 10) ++ [Nat.digitChar (n % 10)]
termination_by n
decreasing_by exact Nat.div_lt_self (by omega) (by omega)

/-- Sample clock-in request payload used in concrete scenarios. -/
def cfgA : RequestConfig := ⟨"POST", "/visits/v1/clock-in", "locationA"⟩

/-- Sample clock-out request payload used in concrete scenarios. -/
def cfgB : RequestConfig := ⟨"POST", "/visits/v1/clock-out", "locationB"⟩

/-- Entry produced by an enqueue of cfgA at millisecond 1000. -/
def reqA1000 : QueuedRequest := mkQueuedRequest 1000 cfgA

/-- Entry produced by an enqueue of cfgB at the same millisecond 1000. -/
def reqB1000 : QueuedRequest := mkQueuedRequest 1000 cfgB

/-- Entry object used in the aliasing scenario. -/
def entA : QueuedRequest := ⟨"9", cfgA, 9⟩

/-- Same entry after a caller mutates its config field in place. -/
def entB : QueuedRequest := ⟨"9", cfgB, 9⟩

/-- Concrete heap for the aliasing scenario: one entry object at address 0,
the internal queue array at address 0 holding a reference to it. -/
def heap0 : EntryHeap :=
  { entries := fun _ => entA, arrays := fun a => if a = 0 then [0] else [] }

/-- Dispatcher behavior for the two-entry failure scenario: the entry with id
1000 fails, every other entry succeeds. -/
def sendFailA : QueuedRequest → Bool := fun r => !(r.id == "1000")

/-- Dispatcher behavior where every entry succeeds. -/
def sendAll : QueuedRequest → Bool := fun _ => true

/-- Pending clock-in action, first duplicate. -/
def pendT1 : OfflineAction := ⟨⟨"visits/clockIn", 1⟩, 10, 0⟩

/-- Pending clock-in action, second duplicate with a different payload. -/
def pendT2 : OfflineAction := ⟨⟨"visits/clockIn", 2⟩, 11, 0⟩

/-- Successful sync result for the clock-in action type. -/
def resT : SyncResult := ⟨true, ⟨"visits/clockIn", 1⟩⟩

/-! ## Helper lemmas -/

/-- Evaluation of enqueueRequest: persistQueue swallows every write error, so
enqueueRequest always resolves with the appended queue. -/
theorem enqueueRequest_eq (w : Except String Unit) (now : Nat)
    (cfg : RequestConfig) (q : List QueuedRequest) :
    enqueueRequest w now cfg q = Except.ok (q ++ [mkQueuedRequest now cfg]) := by
  cases w <;> rfl

/-- Character code of a decimal digit character. -/
theorem digitChar_toNat (d : Nat) (h : d < 10) :
    (Nat.digitChar d).toNat = 48 + d := by
  interval_cases d <;> decide

/-- Appending one digit multiplies the decoded value by ten. -/
theorem decChars_append_digit (xs : List Char) (c : Char) :
    decChars (xs ++ [c]) = decChars xs * 10 + (c.toNat - 48) := by
  induction xs with
  | nil => simp [decChars]
  | cons x xs ih =>
    show (x.toNat - 48) * 10 ^ (xs ++ [c]).length + decChars (xs ++ [c]) =
      ((x.toNat - 48) * 10 ^ xs.length + decChars xs) * 10 + (c.toNat - 48)
    rw [ih, List.length_append]
    simp only [List.length_singleton, pow_succ]
    ring

/-- Decoding inverts the reference decimal rendering. -/
theorem decChars_repList (n : Nat) : decChars (repList n) = n := by
  induction n using Nat.strong_induction_on with
  | _ n ih =>
    rw [repList]
    by_cases h : n < 10
    · rw [dif_pos h]
      simp [decChars, digitChar_toNat n h]
    · rw [dif_neg h]
      rw [decChars_append_digit, ih (n / 10) (Nat.div_lt_self (by omega) (by omega)),
        digitChar_toNat (n % 10) (by omega)]
      omega

/-- With sufficient fuel the fueled core renderer agrees with the reference
renderer. -/
theorem toDigitsCore_eq_repList :
    ∀ fuel n acc, n < fuel → Nat.toDigitsCore 10 fuel n acc = repList n ++ acc := by
  intro fuel
  induction fuel with
  | zero => intro n acc h; omega
  | succ f ih =>
    intro n acc h
    simp only [Nat.toDigitsCore]
    by_cases hn : n / 10 = 0
    · rw [if_pos hn, repList, dif_pos (by omega : n < 10)]
      have hmod : n % 10 = n := Nat.mod_eq_of_lt (by omega)
      simp [hmod]
    · have hrep : repList n = repList (n / 10) ++ [Nat.digitChar (n % 10)] := by
        conv_lhs => rw [repList]
        rw [dif_neg (by omega : ¬ n < 10)]
      rw [if_neg hn, ih (n / 10) _ (by omega), hrep, List.append_assoc]
      rfl

/-- Decimal rendering of natural numbers is injective, hence distinct clock
values yield distinct id strings. -/
theorem toString_nat_inj (m n : Nat) (h : toString m = toString n) : m = n := by
  have hm : toString m = (repList m).asString := by
    show Nat.repr m = _
    unfold Nat.repr Nat.toDigits
    rw [toDigitsCore_eq_repList (m + 1) m [] (by omega)]
    simp
  have hn : toString n = (repList n).asString := by
    show Nat.repr n = _
    unfold Nat.repr Nat.toDigits
    rw [toDigitsCore_eq_repList (n + 1) n [] (by omega)]
    simp
  rw [hm, hn] at h
  have hlist : repList m = repList n := by
    have h2 := congrArg String.data h
    simpa [List.asString] using h2
  have h1 := decChars_repList m
  rw [hlist, decChars_repList] at h1
  omega

/-- When the first components of a list of pairs are nodup and every element
satisfying q shares one first component, at most one element satisfies q. -/
theorem countP_le_one_of_agree {α : Type} (q : Nat × α → Bool) :
    ∀ (l : List (Nat × α)), (l.map Prod.fst).Nodup →
      (∀ x ∈ l, ∀ y ∈ l, q x = true → q y = true → x.1 = y.1) →
      l.countP q ≤ 1 := by
  intro l
  induction l with
  | nil => intro _ _; simp
  | cons a l ih =>
    intro hnd hagree
    rw [List.countP_cons]
    rw [List.map_cons, List.nodup_cons] at hnd
    by_cases hqa : q a = true
    · have hz : l.countP q = 0 := by
        rw [List.countP_eq_zero]
        intro y hy hqy
        have h1 := hagree a (List.mem_cons_self a l) y (List.mem_cons_of_mem a hy) hqa hqy
        have h2 : a.1 ∈ l.map Prod.fst := h1 ▸ List.mem_map_of_mem Prod.fst hy
        exact absurd h2 hnd.1
      simp [hz, hqa]
    · have hle := ih hnd.2 (fun x hx y hy hqx hqy =>
        hagree x (List.mem_cons_of_mem a hx) y (List.mem_cons_of_mem a hy) hqx hqy)
      simpa [hqa] using hle

/-- When every entry of the queue dispatches successfully, the bounded loop
consumes the whole queue and the trace lists every entry in order. -/
theorem processLoop_all_ok (send : QueuedRequest → Bool) :
    ∀ q : List QueuedRequest, (∀ r ∈ q, send r = true) →
      processLoop send q.length q = ([], q) := by
  intro q
  induction q with
  | nil => intro _; rfl
  | cons a rest ih =>
    intro hall
    have ha : send a = true := hall a (List.mem_cons_self a rest)
    have hrest := ih (fun r hr => hall r (List.mem_cons_of_mem a hr))
    simp [processLoop, ha, hrest]

/-! ## Claim theorems -/

/-- C1: for every queue with head entry a, a drain pass in which the dispatch
of a fails removes a from the head, re-appends it at the tail, invokes the
dispatcher exactly once (the trace is the singleton a), and leaves the queue
at its original length; with queue a :: rest the result is rest ++ a. -/
theorem processQueue_head_failure (send : QueuedRequest → Bool)
    (a : QueuedRequest) (rest : List QueuedRequest) (s : ProcState)
    (hq : s.queue = a :: rest) (hp : s.isProcessing = false)
    (hf : send a = false) :
    processQueue send true s = (⟨rest ++ [a], false⟩, [a]) ∧
      (rest ++ [a]).length = s.queue.length := by
  obtain ⟨q, ip⟩ := s
  simp only at hq hp
  subst hq hp
  constructor
  · simp [processQueue, processLoop, hf]
  · simp

/-- C1 witness: the two-entry scenario with head A failing yields queue B, A
with B untouched and exactly one dispatcher call. -/
theorem processQueue_head_failure_witness :
    ((⟨[reqA1000, mkQueuedRequest 2000 cfgB], false⟩ : ProcState).queue
        = reqA1000 :: [mkQueuedRequest 2000 cfgB] ∧
      sendFailA reqA1000 = false) ∧
    (processQueue sendFailA true ⟨[reqA1000, mkQueuedRequest 2000 cfgB], false⟩
        = (⟨[mkQueuedRequest 2000 cfgB] ++ [reqA1000], false⟩, [reqA1000]) ∧
      ([mkQueuedRequest 2000 cfgB] ++ [reqA1000]).length
        = (⟨[reqA1000, mkQueuedRequest 2000 cfgB], false⟩ : ProcState).queue.length) :=
  ⟨⟨rfl, by decide⟩,
    processQueue_head_failure sendFailA reqA1000 [mkQueuedRequest 2000 cfgB]
      ⟨[reqA1000, mkQueuedRequest 2000 cfgB], false⟩ rfl rfl (by decide)⟩

/-- C2: a drain pass over a queue in which every dispatch succeeds invokes
the dispatcher once per entry in FIFO order (the trace equals the queue) and
leaves the queue empty. -/
theorem processQueue_all_success (send : QueuedRequest → Bool) (s : ProcState)
    (hp : s.isProcessing = false) (hall : ∀ r ∈ s.queue, send r = true) :
    processQueue send true s = (⟨[], false⟩, s.queue) := by
  obtain ⟨q, ip⟩ := s
  simp only at hp hall ⊢
  subst hp
  cases q with
  | nil => rfl
  | cons a rest =>
    have hloop := processLoop_all_ok send (a :: rest) hall
    rw [List.length_cons] at hloop
    simp [processQueue, hloop]

/-- C2 witness: draining the two-entry queue with an always-successful
dispatcher empties the queue and dispatches both entries in order. -/
theorem processQueue_all_success_witness :
    ((⟨[reqA1000, reqB1000], false⟩ : ProcState).isProcessing = false ∧
      ∀ r ∈ (⟨[reqA1000, reqB1000], false⟩ : ProcState).queue, sendAll r = true) ∧
    processQueue sendAll true ⟨[reqA1000, reqB1000], false⟩
      = (⟨[], false⟩, (⟨[reqA1000, reqB1000], false⟩ : ProcState).queue) :=
  ⟨⟨rfl, by decide⟩,
    processQueue_all_success sendAll ⟨[reqA1000, reqB1000], false⟩ rfl (by decide)⟩

/-- C4: a drain call while the single-flight guard flag is set is a no-op:
the state is returned unchanged and the dispatcher trace is empty. -/
theorem processQueue_reentrant_noop (send : QueuedRequest → Bool)
    (connected : Bool) (s : ProcState) (hp : s.isProcessing = true) :
    processQueue send connected s = (s, []) := by
  simp [processQueue, hp]

/-- C4 witness: with the guard flag set and a non-empty queue, drain makes no
dispatcher call and leaves the queue unchanged. -/
theorem processQueue_reentrant_noop_witness :
    ((⟨[reqA1000], true⟩ : ProcState).isProcessing = true) ∧
    processQueue sendAll true ⟨[reqA1000], true⟩ = (⟨[reqA1000], true⟩, []) :=
  ⟨rfl, processQueue_reentrant_noop sendAll true ⟨[reqA1000], true⟩ rfl⟩

/-- C3: code bug relative to the spec. When the storage write fails during
enqueue, persistQueue resolves successfully anyway (catch-and-log), so
enqueueRequest reports success with the entry only in the in-memory queue;
the durable write failure is never surfaced to the caller. -/
theorem enqueueRequest_swallows_persist_failure :
    persistQueue (Except.error "disk full") = Except.ok () ∧
    enqueueRequest (Except.error "disk full") 1000 cfgA []
      = Except.ok [mkQueuedRequest 1000 cfgA] :=
  ⟨rfl, rfl⟩

/-- C5: code bug relative to the spec. The interceptor has no retry marker
and no single-flight refresh: a request answered 401 whose retry is answered
401 again performs two refresh calls (first conjunct, refreshCalls = 2), and
two separately dispatched 401 requests perform one refresh each rather than
sharing one (second conjunct). The trace also records that each retry is
sent with the token obtained from the preceding refresh. -/
theorem dispatchRequest_repeats_refresh :
    dispatchRequest ⟨some 99, Except.ok (some 42)⟩ true (some 7)
        [SendOutcome.httpErr 401, SendOutcome.httpErr 401, SendOutcome.ok 5]
      = ⟨DispatchOutcome.ok 5, 2, [some 7, some 42, some 42]⟩ ∧
    (dispatchRequest ⟨some 99, Except.ok (some 42)⟩ true (some 7)
        [SendOutcome.httpErr 401, SendOutcome.ok 1]).refreshCalls
      + (dispatchRequest ⟨some 99, Except.ok (some 42)⟩ true (some 7)
        [SendOutcome.httpErr 401, SendOutcome.ok 2]).refreshCalls = 2 := by
  exact ⟨rfl, rfl⟩

/-- C6 counterexample: the pending-count invariant fails at a quiescent
point. Starting from the empty state (where it holds), one offline-marked
redux action adds a pending record without a queue entry, and one service
enqueue adds a queue entry without a pending record. -/
theorem pendingQueueInvariant_broken :
    pendingQueueInvariant ⟨[], []⟩ ∧
    ¬ pendingQueueInvariant (markOfflineAction ⟨[], []⟩ ⟨"visits/clockIn", 1⟩ 5) ∧
    ¬ pendingQueueInvariant (enqueueRequestApp ⟨[], []⟩ 6 cfgA) := by
  refine ⟨rfl, ?_, ?_⟩ <;> simp [pendingQueueInvariant, markOfflineAction, enqueueRequestApp]

/-- C6 amended: the two offline stores are maintained by disjoint code
paths. markOfflineAction grows pendingActions by one and never touches the
service queue; enqueueRequest grows the service queue by one and never
touches pendingActions. Nothing couples the two lengths, so the equality
invariant of the spec is not maintained. -/
theorem markOfflineAction_enqueueRequest_disjoint (s : AppState)
    (a : ReduxAction) (now now2 : Nat) (cfg : RequestConfig) :
    (markOfflineAction s a now).queue = s.queue ∧
    (markOfflineAction s a now).pendingActions.length
      = s.pendingActions.length + 1 ∧
    (enqueueRequestApp s now2 cfg).pendingActions = s.pendingActions ∧
    (enqueueRequestApp s now2 cfg).queue.length = s.queue.length + 1 := by
  refine ⟨rfl, ?_, rfl, ?_⟩ <;> simp [markOfflineAction, enqueueRequestApp]

/-- C7 counterexample: two back-to-back enqueue calls within the same
millisecond produce two distinct entries carrying the same id, refuting
uniqueness of ids for every pair of entries ever placed in the queue. -/
theorem enqueueRequest_id_collision :
    enqueueRequest (Except.ok ()) 1000 cfgA [] = Except.ok [reqA1000] ∧
    enqueueRequest (Except.ok ()) 1000 cfgB [reqA1000]
      = Except.ok [reqA1000, reqB1000] ∧
    reqA1000 ≠ reqB1000 ∧ reqA1000.id = reqB1000.id :=
  ⟨rfl, rfl, by decide, rfl⟩

/-- C7 amended: ids are assigned at enqueue time as the decimal string of
the enqueue millisecond, so entries enqueued at distinct clock values
receive distinct ids; only same-millisecond enqueues collide. -/
theorem enqueueRequest_distinct_times_distinct_ids
    (w1 w2 : Except String Unit) (q1 q2 : List QueuedRequest) (t1 t2 : Nat)
    (c1 c2 : RequestConfig) (h : t1 ≠ t2) :
    ∃ r1 r2, enqueueRequest w1 t1 c1 q1 = Except.ok (q1 ++ [r1]) ∧
      enqueueRequest w2 t2 c2 q2 = Except.ok (q2 ++ [r2]) ∧ r1.id ≠ r2.id := by
  refine ⟨mkQueuedRequest t1 c1, mkQueuedRequest t2 c2,
    enqueueRequest_eq w1 t1 c1 q1, enqueueRequest_eq w2 t2 c2 q2, ?_⟩
  intro hid
  exact h (toString_nat_inj t1 t2 hid)

/-- C7 amended witness: enqueues at milliseconds 1000 and 1001 yield entries
with distinct ids. -/
theorem enqueueRequest_distinct_times_distinct_ids_witness :
    (1000 : Nat) ≠ 1001 ∧
    ∃ r1 r2, enqueueRequest (Except.ok ()) 1000 cfgA [] = Except.ok ([] ++ [r1]) ∧
      enqueueRequest (Except.ok ()) 1001 cfgB [] = Except.ok ([] ++ [r2]) ∧
      r1.id ≠ r2.id :=
  ⟨by decide, enqueueRequest_distinct_times_distinct_ids
    (Except.ok ()) (Except.ok ()) [] [] 1000 1001 cfgA cfgB (by decide)⟩

/-- C8 counterexample: the snapshot is only a shallow copy. The returned
array (fresh address 1) holds the same entry reference 0 as the internal
queue array, so a caller that mutates the entry object reached through the
snapshot changes the queue contents seen by subsequent operations. -/
theorem getQueue_entry_aliasing :
    ((getQueue heap0 0 1).1.arrays (getQueue heap0 0 1).2).contains 0 = true ∧
    queueContents heap0 0 = [entA] ∧
    queueContents (writeEntry (getQueue heap0 0 1).1 0 entB) 0 = [entB] ∧
    entB ≠ entA := by
  refine ⟨rfl, rfl, ?_, by decide⟩
  simp [queueContents, writeEntry, getQueue, heap0]

/-- C8 amended: getQueue returns a freshly allocated array holding the same
entry references as the internal queue, and structural mutation of that
fresh array (replacing its contents) leaves the queue contents observed
through the internal array unchanged; only entry-object mutation is shared.
-/
theorem getQueue_structural_isolation (h : EntryHeap) (qa fresh : Nat)
    (l : List Nat) (hne : fresh ≠ qa) :
    (getQueue h qa fresh).1.arrays fresh = h.arrays qa ∧
    queueContents (writeArray (getQueue h qa fresh).1 fresh l) qa
      = queueContents h qa := by
  have hqa : qa ≠ fresh := fun hh => hne hh.symm
  constructor
  · simp [getQueue]
  · simp [getQueue, writeArray, queueContents, hqa]

/-- C8 amended witness: on the concrete heap, replacing the contents of the
snapshot array does not change the queue contents. -/
theorem getQueue_structural_isolation_witness :
    (1 : Nat) ≠ 0 ∧
    ((getQueue heap0 0 1).1.arrays 1 = heap0.arrays 0 ∧
      queueContents (writeArray (getQueue heap0 0 1).1 1 [5]) 0
        = queueContents heap0 0) :=
  ⟨by decide, getQueue_structural_isolation heap0 0 1 [5] (by decide)⟩

/-- C9: isConnected never throws. For every probe outcome it resolves with a
boolean (never an error), on probe failure it returns the last known cached
state unchanged, and on probe success it returns and caches the fresh state
with null coalesced to false. -/
theorem isConnected_never_throws :
    (∀ probe cached, ∃ r, isConnected probe cached = Except.ok r) ∧
    (∀ cached, isConnected (Except.error ()) cached = Except.ok (cached, cached)) ∧
    (∀ st cached,
      isConnected (Except.ok st) cached = Except.ok (st.getD false, st.getD false)) := by
  refine ⟨?_, fun _ => rfl, fun _ _ => rfl⟩
  intro probe cached
  cases probe with
  | ok st => exact ⟨_, rfl⟩
  | error e => exact ⟨_, rfl⟩

/-- C10: the fulfilled-sync reducer removes pending actions only by first
index per action type, so the result is a sublist of the pending list and,
for any type t, even when two or more successful results share type t, at
most one pending entry of type t is removed: the count of type-t entries
drops by at most one and the remaining duplicates stay. -/
theorem syncFulfilled_removes_at_most_one_per_type
    (pending : List OfflineAction) (results : List SyncResult) (t : String)
    (hdup : 2 ≤ ((results.filter (fun r => r.success)).filter
        (fun r => r.action.type == t)).length) :
    (syncOfflineDataFulfilled pending results).Sublist pending ∧
    pending.countP (fun pa => pa.action.type == t) ≤
      (syncOfflineDataFulfilled pending results).countP
        (fun pa => pa.action.type == t) + 1 := by
  constructor
  · have hsub : (pending.enum.filter
        (fun x => !((successfulIdxs pending results).contains x.1))).Sublist
          pending.enum := List.filter_sublist _
    have hmap := hsub.map Prod.snd
    rw [List.enum_map_snd] at hmap
    exact hmap
  · have h0 : pending.countP (fun pa => pa.action.type == t)
        = pending.enum.countP
          ((fun pa : OfflineAction => pa.action.type == t) ∘ Prod.snd) := by
      conv_lhs => rw [← List.enum_map_snd pending]
      rw [List.countP_map]
    have h1 : (syncOfflineDataFulfilled pending results).countP
          (fun pa => pa.action.type == t)
        = (pending.enum.filter
            (fun x => !((successfulIdxs pending results).contains x.1))).countP
            ((fun pa : OfflineAction => pa.action.type == t) ∘ Prod.snd) := by
      unfold syncOfflineDataFulfilled
      rw [List.countP_map]
    have hfix : ∀ x ∈ pending.enum,
        (((fun pa : OfflineAction => pa.action.type == t) ∘ Prod.snd) x
          && (successfulIdxs pending results).contains x.1) = true →
        List.findIdx? (fun pa => pa.action.type == t) pending = some x.1 := by
      rintro ⟨i, a⟩ hmem hq
      rw [Bool.and_eq_true] at hq
      obtain ⟨hqt, hqc⟩ := hq
      have hmem2 : i ∈ successfulIdxs pending results := by simpa using hqc
      unfold successfulIdxs at hmem2
      rw [List.mem_filterMap] at hmem2
      obtain ⟨r, hr, hfind⟩ := hmem2
      obtain ⟨hlt, hpred, hmin⟩ := List.findIdx?_eq_some_iff_getElem.mp hfind
      have henum := List.mem_enum hmem
      have ha : a = pending[i] := henum.2
      have hat : a.action.type = t := by simpa using hqt
      have hra : pending[i].action.type = r.action.type := by simpa using hpred
      have hrt : r.action.type = t := by
        rw [← hra, ← ha]
        exact hat
      rw [hrt] at hfind
      exact hfind
    have hagree : ∀ x ∈ pending.enum, ∀ y ∈ pending.enum,
        (((fun pa : OfflineAction => pa.action.type == t) ∘ Prod.snd) x
          && (successfulIdxs pending results).contains x.1) = true →
        (((fun pa : OfflineAction => pa.action.type == t) ∘ Prod.snd) y
          && (successfulIdxs pending results).contains y.1) = true →
        x.1 = y.1 := by
      intro x hx y hy hqx hqy
      have h1x := hfix x hx hqx
      have h1y := hfix y hy hqy
      rw [h1x] at h1y
      exact Option.some.inj h1y
    have hD : (pending.enum.filter
        (fun a => (successfulIdxs pending results).contains a.1)).countP
        ((fun pa : OfflineAction => pa.action.type == t) ∘ Prod.snd) ≤ 1 := by
      rw [List.countP_filter]
      exact countP_le_one_of_agree _ pending.enum (List.nodup_enum_map_fst pending) hagree
    have hsplit := List.countP_eq_countP_filter_add pending.enum
      ((fun pa : OfflineAction => pa.action.type == t) ∘ Prod.snd)
      (fun x => !((successfulIdxs pending results).contains x.1))
    simp only [Bool.not_not] at hsplit
    rw [h0, h1]
    omega

/-- C10 witness: with two pending clock-in actions and two successful
clock-in results, the reducer removes only the first pending clock-in; the
second stays. -/
theorem syncFulfilled_removes_at_most_one_per_type_witness :
    2 ≤ (([resT, resT].filter (fun r => r.success)).filter
        (fun r => r.action.type == "visits/clockIn")).length ∧
    ((syncOfflineDataFulfilled [pendT1, pendT2] [resT, resT]).Sublist
        [pendT1, pendT2] ∧
      [pendT1, pendT2].countP (fun pa => pa.action.type == "visits/clockIn") ≤
        (syncOfflineDataFulfilled [pendT1, pendT2] [resT, resT]).countP
          (fun pa => pa.action.type == "visits/clockIn") + 1) :=
  ⟨by decide, syncFulfilled_removes_at_most_one_per_type [pendT1, pendT2]
    [resT, resT] "visits/clockIn" (by decide)⟩
